import Mathlib

/-!
Shallow embedding of the quiz-platform backend core (answer submission and
scoring, question creation with tag counting, leaderboard ranking), translated
from the Express/Sequelize route handlers and model definitions of the
repository.  Database tables are lists of rows; `findByPk`/`findOne` become
`List.find?`; Sequelize `increment` becomes an id-targeted `List.map` update.
-/

namespace QuizPeach

/-- A row of the `Users` table (credential columns omitted: the core never
reads them). `score` defaults to 0 at registration. -/
structure User where
  id : Nat
  name : String
  score : Nat
deriving DecidableEq, Repr

/-- A row of the `Questions` table, mirroring `models/Question.js`. -/
structure Question where
  id : Nat
  creator_id : Nat
  name : String
  question : String
  option1 : String
  option2 : String
  option3 : String
  option4 : String
  correct_option : Nat
  level : String
  answer_count : Nat
  correct_answer_count : Nat
  tag_id : Nat
deriving DecidableEq, Repr

/-- A row of the `Tags` table, mirroring `models/Tag.js`. -/
structure Tag where
  id : Nat
  name : String
  question_number : Nat
deriving DecidableEq, Repr

/-- The `answered_status` string stored for a correct answer. -/
def statusCorrect : String := "صحیح حل شده"

/-- The `answered_status` string stored for an incorrect answer. -/
def statusIncorrect : String := "غلط حل شده"

/-- A row of the `AnsweredQuestionUsers` ledger table (composite key
`(question_id, user_id)` plus the enumerated `answered_status`). -/
structure AnsweredQuestionUser where
  question_id : Nat
  user_id : Nat
  answered_status : String
deriving DecidableEq, Repr

/-- A row of the `RelatedQuestions` table. -/
structure RelatedQuestion where
  question_id : Nat
  related_id : Nat
deriving DecidableEq, Repr

/-- The persistent store: one list per table. -/
structure Store where
  users : List User
  questions : List Question
  tags : List Tag
  records : List AnsweredQuestionUser
  related : List RelatedQuestion
deriving DecidableEq, Repr

/-- Error kinds of the spec taxonomy, as produced by the route handlers:
`ValidationError` for 400 malformed-input responses, `NotFoundError` for 404
missing-entity responses, `ConflictError` for the duplicate-answer rejection. -/
inductive ErrKind where
  | ValidationError
  | NotFoundError
  | ConflictError
deriving DecidableEq, Repr

/-- `User.findByPk(user_id)`. -/
def getUser (s : Store) (uid : Nat) : Option User :=
  s.users.find? (fun u => u.id == uid)

/-- `Question.findByPk(question_id)`. -/
def getQuestion (s : Store) (qid : Nat) : Option Question :=
  s.questions.find? (fun q => q.id == qid)

/-- All ledger rows for a given (user, question) pair. -/
def recordsFor (s : Store) (uid qid : Nat) : List AnsweredQuestionUser :=
  s.records.filter (fun r => r.user_id == uid && r.question_id == qid)

/-- The `[1, 2, 3, 4].includes(option)` check. -/
def validOption (o : Nat) : Bool :=
  o == 1 || o == 2 || o == 3 || o == 4

/-- Effect of `question.increment('answer_count')` followed, when the answer is
correct, by `question.increment('correct_answer_count')`. -/
def bumpQuestionCounters (qs : List Question) (qid : Nat) (isCorrect : Bool) : List Question :=
  qs.map (fun q =>
    if q.id == qid then
      { q with answer_count := q.answer_count + 1,
               correct_answer_count := q.correct_answer_count + (if isCorrect then 1 else 0) }
    else q)

/-- Effect of `user.increment('score')`. -/
def bumpScore (us : List User) (uid : Nat) : List User :=
  us.map (fun u => if u.id == uid then { u with score := u.score + 1 } else u)

/-- Result of the answer-submission handler: the store as left by the handler
(which may have mutated it even on an error response) and the response. -/
structure AnswerResult where
  store : Store
  outcome : Except ErrKind Bool
deriving Repr

/-- The `POST /answer` handler: validate `question_id`/`option` (JS falsy check,
then range check), resolve user then question (404 on either), compute
correctness, increment the question counters, only then look for an existing
ledger row (rejecting with the duplicate-answer error if found), insert the
ledger row, and finally bump the user's score when correct. -/
def submitAnswer (s : Store) (user_id question_id opt : Nat) : AnswerResult :=
  if question_id == 0 || opt == 0 then
    ⟨s, .error .ValidationError⟩
  else if !(validOption opt) then
    ⟨s, .error .ValidationError⟩
  else
    match getUser s user_id with
    | none => ⟨s, .error .NotFoundError⟩
    | some _user =>
      match getQuestion s question_id with
      | none => ⟨s, .error .NotFoundError⟩
      | some question =>
        let isCorrect := question.correct_option == opt
        let s1 : Store := { s with questions := bumpQuestionCounters s.questions question_id isCorrect }
        if s.records.any (fun r => r.user_id == user_id && r.question_id == question_id) then
          ⟨s1, .error .ConflictError⟩
        else
          let s2 : Store := { s1 with records :=
            s1.records ++ [⟨question_id, user_id, if isCorrect then statusCorrect else statusIncorrect⟩] }
          let s3 : Store := if isCorrect then { s2 with users := bumpScore s2.users user_id } else s2
          ⟨s3, .ok isCorrect⟩

/-- Request body of the question-creation handler. An absent optional
`related_ids` is modelled as `[]` (same effect: no related rows created). -/
structure CreateQuestionInput where
  name : String
  question : String
  option1 : String
  option2 : String
  option3 : String
  option4 : String
  correct_option : Nat
  level : String
  tag_name : String
  related_ids : List Nat
deriving DecidableEq, Repr

/-- Result of the question-creation handler. -/
structure CreateResult where
  store : Store
  outcome : Except ErrKind Unit
deriving Repr

/-- The handler's first guard: every required field truthy (non-empty strings,
nonzero `correct_option`). -/
def requiredFieldsPresent (b : CreateQuestionInput) : Bool :=
  !b.name.isEmpty && !b.question.isEmpty && !b.option1.isEmpty && !b.option2.isEmpty &&
  !b.option3.isEmpty && !b.option4.isEmpty && !(b.correct_option == 0) &&
  !b.level.isEmpty && !b.tag_name.isEmpty

/-- Autoincrement id supply for `Question.create`. -/
def freshQuestionId (s : Store) : Nat :=
  (s.questions.map (fun q => q.id)).foldr max 0 + 1

/-- The `POST /` question-creation handler: validate the body, validate
`correct_option`, resolve the tag by name (404 when absent), create the
Question, increment the tag's `question_number`, create related-question rows. -/
def createQuestion (s : Store) (currentUserId : Nat) (b : CreateQuestionInput) : CreateResult :=
  if !(requiredFieldsPresent b) then
    ⟨s, .error .ValidationError⟩
  else if !(validOption b.correct_option) then
    ⟨s, .error .ValidationError⟩
  else
    match s.tags.find? (fun t => t.name == b.tag_name) with
    | none => ⟨s, .error .NotFoundError⟩
    | some tag =>
      let newQ : Question :=
        { id := freshQuestionId s, creator_id := currentUserId, name := b.name,
          question := b.question, option1 := b.option1, option2 := b.option2,
          option3 := b.option3, option4 := b.option4, correct_option := b.correct_option,
          level := b.level, answer_count := 0, correct_answer_count := 0, tag_id := tag.id }
      let s1 : Store := { s with questions := s.questions ++ [newQ] }
      let s2 : Store := { s1 with tags := s1.tags.map (fun t =>
        if t.id == tag.id then { t with question_number := t.question_number + 1 } else t) }
      let s3 : Store := { s2 with related :=
        s2.related ++ b.related_ids.map (fun rid => ⟨newQ.id, rid⟩) }
      ⟨s3, .ok ()⟩

/-- Character-list version of `a` being an initial run of `b`. -/
def charsLead : List Char → List Char → Bool
  | [], _ => true
  | _ :: _, [] => false
  | a :: as, b :: bs => a == b && charsLead as bs

/-- Character-list version of `n` occurring contiguously inside the second list. -/
def charsWithin : List Char → List Char → Bool
  | n, [] => n.isEmpty
  | n, c :: cs => charsLead n (c :: cs) || charsWithin n cs

/-- SQL `LIKE '%pat%'` (case-insensitive, as SQLite applies it). -/
def likeContains (hay pat : String) : Bool :=
  charsWithin (pat.data.map Char.toLower) (hay.data.map Char.toLower)

/-- The leaderboard's name criterion: applied only when the `name` query
parameter is truthy (present and non-empty). -/
def nameFilterMatch (nameFilter : Option String) (uname : String) : Bool :=
  match nameFilter with
  | none => true
  | some n => if n.isEmpty then true else likeContains uname n

/-- Insert into a score-descending list, keeping earlier elements first on ties. -/
def insertScoreDesc (u : User) : List User → List User
  | [] => [u]
  | v :: vs => if v.score < u.score then u :: v :: vs else v :: insertScoreDesc u vs

/-- `ORDER BY score DESC` over the selected rows. -/
def sortScoreDesc : List User → List User
  | [] => []
  | u :: us => insertScoreDesc u (sortScoreDesc us)

/-- The rank-assignment walk of the leaderboard handler, transcribed from the
`allUsers.map((user, index) => ...)` loop: each user is paired with the current
`rank` value, and only afterwards is `rank` set to `index + 1` when this user's
score differs from the previous user's score. `prevScore` is the previous
user's score, `index` the current 0-based index, `rank` the current value of
the mutable `rank` variable. -/
def rankWalk : Nat → Nat → Nat → List User → List (User × Nat)
  | _, _, _, [] => []
  | prevScore, index, rank, u :: us =>
    let nextRank := if u.score ≠ prevScore then index + 1 else rank
    (u, rank) :: rankWalk u.score (index + 1) nextRank us

/-- Rank assignment over the combined `[currentUser, ...otherUsers]` list:
the element at index 0 always receives rank 1 (the `index > 0` guard skips the
update on the first iteration). -/
def assignRanks : List User → List (User × Nat)
  | [] => []
  | u :: us => (u, 1) :: rankWalk u.score 1 1 us

set_option linter.unusedVariables false in
/-- The `GET /` leaderboard handler: fetch the current user (400 when absent),
select the other users (id different from the current user's, name criterion
only when the `name` parameter is truthy) sorted by score descending with the
hard-coded `sortOrder = 'DESC'` — the `sort` query parameter `sortParam` is
never read — prepend the current user, and assign ranks. Read-only: the store
is not changed. -/
def leaderboard (s : Store) (nameFilter : Option String) (sortParam : Option String)
    (currentUserId : Nat) : Except ErrKind (List (User × Nat)) :=
  match getUser s currentUserId with
  | none => .error .ValidationError
  | some currentUser =>
    let otherUsers := sortScoreDesc (s.users.filter (fun u =>
      !(u.id == currentUserId) && nameFilterMatch nameFilter u.name))
    .ok (assignRanks (currentUser :: otherUsers))

/-- Run a sequence of answer submissions, threading the store (each handler
call leaves whatever state it leaves, also on error responses). -/
def submitMany (s : Store) : List (Nat × Nat × Nat) → Store
  | [] => s
  | (uid, qid, opt) :: rest => submitMany (submitAnswer s uid qid opt).store rest

/-- Counter invariant of §3: `correct_answer_count ≤ answer_count` on every
question (the lower bound 0 is carried by the `Nat` type). -/
def CountersInv (s : Store) : Prop :=
  ∀ q ∈ s.questions, q.correct_answer_count ≤ q.answer_count

/-- Score invariant of §3: each user's score equals the number of their ledger
rows whose status is the Correct status. -/
def ScoreInv (s : Store) : Prop :=
  ∀ u ∈ s.users,
    u.score = (s.records.filter
      (fun r => r.user_id == u.id && r.answered_status == statusCorrect)).length

instance (s : Store) : Decidable (CountersInv s) := by
  unfold CountersInv
  infer_instance

instance (s : Store) : Decidable (ScoreInv s) := by
  unfold ScoreInv
  infer_instance

/-! Concrete stores used to exercise the handlers on explicit inputs. -/

/-- A question with `correct_option = 2` and counters at zero. -/
def baseQuestion : Question :=
  ⟨1, 2, "q1", "body", "a", "b", "c", "d", 2, "ساده", 0, 0, 1⟩

/-- Two users with score 0, one fresh question, one tag named Algebra with
`question_number = 3`, empty ledger. -/
def baseStore : Store :=
  ⟨[⟨1, "alice", 0⟩, ⟨2, "bob", 0⟩], [baseQuestion], [⟨1, "Algebra", 3⟩], [], []⟩

/-- A store in which user 1 has already answered question 1 correctly: the
question counters and the user's score reflect that single correct answer. -/
def answeredQ : Question :=
  ⟨1, 2, "q1", "body", "a", "b", "c", "d", 2, "ساده", 1, 1, 1⟩

/-- Store after user 1 answered question 1 correctly once. -/
def answeredStore : Store :=
  ⟨[⟨1, "alice", 1⟩], [answeredQ], [], [⟨1, 1, statusCorrect⟩], []⟩

/-- Three users whose scores, taken in the handler's combined order with user 1
as the requester, are [50, 50, 30]. -/
def lbStore : Store :=
  ⟨[⟨1, "amy", 50⟩, ⟨2, "bea", 50⟩, ⟨3, "cal", 30⟩], [], [], [], []⟩

/-- Requester with score 0 plus two other users with distinct scores 10, 20. -/
def sortStore : Store :=
  ⟨[⟨1, "amy", 0⟩, ⟨2, "bea", 10⟩, ⟨3, "cal", 20⟩], [], [], [], []⟩

/-- A question-creation request body tagged Algebra. -/
def algebraBody : CreateQuestionInput :=
  ⟨"q2", "body2", "a", "b", "c", "d", 3, "ساده", "Algebra", []⟩

/-- A question-creation request body with an unknown tag name. -/
def unknownTagBody : CreateQuestionInput :=
  ⟨"q2", "body2", "a", "b", "c", "d", 3, "ساده", "Geometry", []⟩

/-- The Question row that `Question.create` builds in the creation handler. -/
def newQuestionFor (s : Store) (cuid : Nat) (b : CreateQuestionInput) (tid : Nat) : Question :=
  { id := freshQuestionId s, creator_id := cuid, name := b.name,
    question := b.question, option1 := b.option1, option2 := b.option2,
    option3 := b.option3, option4 := b.option4, correct_option := b.correct_option,
    level := b.level, answer_count := 0, correct_answer_count := 0, tag_id := tid }

/-- `Tag.findByPk`-style lookup by tag id. -/
def getTag (s : Store) (tid : Nat) : Option Tag :=
  s.tags.find? (fun t => t.id == tid)

/-- The rank column of a leaderboard response (empty on error). -/
def ranksOut : Except ErrKind (List (User × Nat)) → List Nat
  | .error _ => []
  | .ok l => l.map (fun p => p.2)

/-- The score column of a leaderboard response (empty on error). -/
def scoresOut : Except ErrKind (List (User × Nat)) → List Nat
  | .error _ => []
  | .ok l => l.map (fun p => p.1.score)

end QuizPeach


namespace QuizPeach

/-! Helper lemmas about `List.find?` over id-preserving row updates, membership
in the insertion sort, and the rank walk. -/

lemma find?_map_comm {α : Type} (p : α → Bool) (g : α → α)
    (hp : ∀ x, p (g x) = p x) (l : List α) :
    (l.map g).find? p = (l.find? p).map g := by
  rw [List.find?_map, show (p ∘ g) = p from funext hp]

lemma find?_map_skip {α : Type} (p : α → Bool) (g : α → α)
    (hp : ∀ x, p (g x) = p x) (hfix : ∀ x, p x = true → g x = x) (l : List α) :
    (l.map g).find? p = l.find? p := by
  rw [find?_map_comm p g hp l]
  cases hf : l.find? p with
  | none => rfl
  | some a => rw [Option.map_some', hfix a (List.find?_some hf)]

lemma mem_insertScoreDesc {u v : User} {l : List User} :
    v ∈ insertScoreDesc u l ↔ v = u ∨ v ∈ l := by
  induction l with
  | nil => simp [insertScoreDesc]
  | cons w ws ih =>
    by_cases h : w.score < u.score
    · simp [insertScoreDesc, h]
    · simp [insertScoreDesc, h, ih]
      tauto

lemma mem_sortScoreDesc {v : User} {l : List User} :
    v ∈ sortScoreDesc l ↔ v ∈ l := by
  induction l with
  | nil => simp [sortScoreDesc]
  | cons w ws ih => simp [sortScoreDesc, mem_insertScoreDesc, ih]

lemma rankWalk_map_fst (l : List User) :
    ∀ ps i r, (rankWalk ps i r l).map (fun p => p.1) = l := by
  induction l with
  | nil => intro ps i r; rfl
  | cons u us ih => intro ps i r; simp [rankWalk, ih]

end QuizPeach

namespace QuizPeach

lemma validOption_ne_zero {o : Nat} (hv : validOption o = true) : o ≠ 0 := by
  intro h
  subst h
  simp [validOption] at hv

/-- Evaluation of the answer handler on a first (not yet answered) submission
with a valid option and existing user and question. -/
lemma submitAnswer_fresh (s : Store) (uid qid opt : Nat) (u : User) (q : Question)
    (hq0 : qid ≠ 0) (hv : validOption opt = true)
    (hu : getUser s uid = some u) (hq : getQuestion s qid = some q)
    (hfresh : s.records.any (fun r => r.user_id == uid && r.question_id == qid) = false) :
    submitAnswer s uid qid opt =
      ⟨⟨(if q.correct_option == opt then bumpScore s.users uid else s.users),
        bumpQuestionCounters s.questions qid (q.correct_option == opt),
        s.tags,
        s.records ++ [⟨qid, uid, if q.correct_option == opt then statusCorrect else statusIncorrect⟩],
        s.related⟩,
       .ok (q.correct_option == opt)⟩ := by
  have ho : opt ≠ 0 := validOption_ne_zero hv
  have h1 : (qid == 0 || opt == 0) = false := by simp [hq0, ho]
  have h2 : (!(validOption opt)) = false := by simp [hv]
  simp only [submitAnswer, h1, h2, hu, hq, hfresh, Bool.false_eq_true, if_false]
  cases hc : (q.correct_option == opt) <;> simp [hc]

/-- Evaluation of the answer handler on a duplicate submission: the question
counters are still incremented, then the duplicate-answer rejection fires. -/
lemma submitAnswer_dup (s : Store) (uid qid opt : Nat) (u : User) (q : Question)
    (hq0 : qid ≠ 0) (hv : validOption opt = true)
    (hu : getUser s uid = some u) (hq : getQuestion s qid = some q)
    (hdup : s.records.any (fun r => r.user_id == uid && r.question_id == qid) = true) :
    submitAnswer s uid qid opt =
      ⟨{ s with questions := bumpQuestionCounters s.questions qid (q.correct_option == opt) },
       .error .ConflictError⟩ := by
  have ho : opt ≠ 0 := validOption_ne_zero hv
  have h1 : (qid == 0 || opt == 0) = false := by simp [hq0, ho]
  have h2 : (!(validOption opt)) = false := by simp [hv]
  simp only [submitAnswer, h1, h2, hu, hq, hdup, Bool.false_eq_true, if_false, if_true]

end QuizPeach

namespace QuizPeach

lemma countersInv_bump (qs : List Question) (qid : Nat) (b : Bool)
    (h : ∀ q ∈ qs, q.correct_answer_count ≤ q.answer_count) :
    ∀ q ∈ bumpQuestionCounters qs qid b, q.correct_answer_count ≤ q.answer_count := by
  intro q hq
  obtain ⟨q', hq', rfl⟩ := List.mem_map.mp hq
  have hh := h q' hq'
  by_cases hid : (q'.id == qid) = true
  · simp only [hid, if_true]
    cases b <;> simp <;> omega
  · simp only [Bool.not_eq_true] at hid
    simp only [hid, Bool.false_eq_true, if_false]
    exact hh

/-- Each answer submission preserves the per-question counter invariant,
whatever path the handler takes. -/
lemma countersInv_step (s : Store) (uid qid opt : Nat) (h : CountersInv s) :
    CountersInv (submitAnswer s uid qid opt).store := by
  simp only [submitAnswer]
  split
  · exact h
  split
  · exact h
  split
  · exact h
  split
  · exact h
  split
  · exact countersInv_bump s.questions qid _ h
  split
  · exact countersInv_bump s.questions qid _ h
  · exact countersInv_bump s.questions qid _ h

lemma scoreCount_append_correct (recs : List AnsweredQuestionUser) (qid uid i : Nat) :
    (List.filter (fun r => r.user_id == i && r.answered_status == statusCorrect)
      (recs ++ [AnsweredQuestionUser.mk qid uid statusCorrect])).length =
    (List.filter (fun r => r.user_id == i && r.answered_status == statusCorrect) recs).length
      + (if uid == i then 1 else 0) := by
  rw [List.filter_append, List.length_append]
  congr 1
  by_cases hui : (uid == i) = true <;> simp [List.filter_cons, hui]

lemma scoreCount_append_incorrect (recs : List AnsweredQuestionUser) (qid uid i : Nat) :
    (List.filter (fun r => r.user_id == i && r.answered_status == statusCorrect)
      (recs ++ [AnsweredQuestionUser.mk qid uid statusIncorrect])).length =
    (List.filter (fun r => r.user_id == i && r.answered_status == statusCorrect) recs).length := by
  rw [List.filter_append, List.length_append]
  simp [List.filter_cons, show (statusIncorrect == statusCorrect) = false from by decide]

lemma scoreInv_core_correct (us : List User) (recs : List AnsweredQuestionUser) (uid qid : Nat)
    (h : ∀ u ∈ us, u.score =
      (recs.filter (fun r => r.user_id == u.id && r.answered_status == statusCorrect)).length) :
    ∀ u ∈ bumpScore us uid, u.score =
      (List.filter (fun r => r.user_id == u.id && r.answered_status == statusCorrect)
        (recs ++ [AnsweredQuestionUser.mk qid uid statusCorrect])).length := by
  intro u hu
  obtain ⟨u', hu', rfl⟩ := List.mem_map.mp hu
  have hh := h u' hu'
  by_cases hid : (u'.id == uid) = true
  · have hid' : u'.id = uid := by simpa using hid
    simp only [hid, if_true]
    rw [scoreCount_append_correct]
    simp only [show (uid == u'.id) = true from by simp [hid'], if_true]
    exact congrArg (fun n => n + 1) hh
  · simp only [Bool.not_eq_true] at hid
    simp only [hid, Bool.false_eq_true, if_false]
    rw [scoreCount_append_correct]
    have hid' : uid ≠ u'.id := by
      intro hcontra
      subst hcontra
      simp at hid
    simp only [show (uid == u'.id) = false from by simp [hid'], if_false]
    simpa using hh

lemma scoreInv_core_incorrect (us : List User) (recs : List AnsweredQuestionUser) (uid qid : Nat)
    (h : ∀ u ∈ us, u.score =
      (recs.filter (fun r => r.user_id == u.id && r.answered_status == statusCorrect)).length) :
    ∀ u ∈ us, u.score =
      (List.filter (fun r => r.user_id == u.id && r.answered_status == statusCorrect)
        (recs ++ [AnsweredQuestionUser.mk qid uid statusIncorrect])).length := by
  intro u hu
  rw [scoreCount_append_incorrect]
  exact h u hu

/-- Each answer submission preserves the score invariant. -/
lemma scoreInv_step (s : Store) (uid qid opt : Nat) (h : ScoreInv s) :
    ScoreInv (submitAnswer s uid qid opt).store := by
  simp only [submitAnswer]
  split
  · exact h
  split
  · exact h
  split
  · exact h
  split
  · exact h
  split
  · exact h
  split
  · rename_i hc
    simp only [hc, if_true]
    exact scoreInv_core_correct s.users s.records uid qid h
  · rename_i hc
    simp only [Bool.not_eq_true] at hc
    simp only [hc, Bool.false_eq_true, if_false]
    exact scoreInv_core_incorrect s.users s.records uid qid h

end QuizPeach

namespace QuizPeach

/-- Case analysis of a submission's effect on the user table: either it
succeeded with a correct answer (score bumped, Correct ledger row appended), or
it left the user table untouched and did not report a correct answer. -/
lemma submitAnswer_users_cases (s : Store) (uid qid opt : Nat) :
    ((submitAnswer s uid qid opt).outcome = .ok true ∧
      (submitAnswer s uid qid opt).store.users = bumpScore s.users uid ∧
      (submitAnswer s uid qid opt).store.records =
        s.records ++ [AnsweredQuestionUser.mk qid uid statusCorrect]) ∨
    ((submitAnswer s uid qid opt).store.users = s.users ∧
      (submitAnswer s uid qid opt).outcome ≠ .ok true) := by
  simp only [submitAnswer]
  split
  · right; exact ⟨rfl, by simp⟩
  split
  · right; exact ⟨rfl, by simp⟩
  split
  · right; exact ⟨rfl, by simp⟩
  split
  · right; exact ⟨rfl, by simp⟩
  split
  · right; exact ⟨rfl, by simp⟩
  split
  · rename_i hc
    left
    refine ⟨by simp [hc], rfl, ?_⟩
    simp [hc]
  · rename_i hc
    simp only [Bool.not_eq_true] at hc
    right
    exact ⟨rfl, by simp [hc]⟩

/-- C6: for every question, after any sequence of answer submissions run from a
store satisfying the counter invariant (in particular one whose questions are
fresh, with both counters 0), `correct_answer_count ≤ answer_count` holds for
every question; the lower bound 0 is enforced by the `Nat` counter type. -/
theorem counters_invariant_preserved (s : Store) (ops : List (Nat × Nat × Nat))
    (h : CountersInv s) : CountersInv (submitMany s ops) := by
  induction ops generalizing s with
  | nil => exact h
  | cons op rest ih =>
    obtain ⟨uid, qid, opt⟩ := op
    exact ih _ (countersInv_step s uid qid opt h)

/-- Witness: the counter invariant holds concretely after a mixed sequence of
correct, incorrect, duplicate and invalid submissions against `baseStore`. -/
theorem counters_invariant_preserved_witness :
    CountersInv baseStore ∧
    CountersInv (submitMany baseStore [(1, 1, 2), (1, 1, 2), (2, 1, 3), (1, 1, 5), (9, 1, 2)]) :=
  ⟨by decide, counters_invariant_preserved baseStore
    [(1, 1, 2), (1, 1, 2), (2, 1, 3), (1, 1, 5), (9, 1, 2)] (by decide)⟩

/-- C7: from any store satisfying the score invariant, every sequence of
submissions preserves it (each user's score equals the number of their Correct
ledger rows); moreover a single submission changes the user table only when it
reports a correct answer, in which case it bumps exactly the submitting user's
score and appends exactly one Correct ledger row. -/
theorem score_matches_correct_records (s : Store) (ops : List (Nat × Nat × Nat))
    (h : ScoreInv s) :
    ScoreInv (submitMany s ops) ∧
    (∀ uid qid opt, (submitAnswer s uid qid opt).outcome ≠ .ok true →
      (submitAnswer s uid qid opt).store.users = s.users) ∧
    (∀ uid qid opt, (submitAnswer s uid qid opt).outcome = .ok true →
      (submitAnswer s uid qid opt).store.users = bumpScore s.users uid ∧
      (submitAnswer s uid qid opt).store.records =
        s.records ++ [AnsweredQuestionUser.mk qid uid statusCorrect]) := by
  refine ⟨?_, ?_, ?_⟩
  · induction ops generalizing s with
    | nil => exact h
    | cons op rest ih =>
      obtain ⟨uid, qid, opt⟩ := op
      exact ih _ (scoreInv_step s uid qid opt h)
  · intro uid qid opt hno
    rcases submitAnswer_users_cases s uid qid opt with hyes | hother
    · exact absurd hyes.1 hno
    · exact hother.1
  · intro uid qid opt hok
    rcases submitAnswer_users_cases s uid qid opt with hyes | hother
    · exact ⟨hyes.2.1, hyes.2.2⟩
    · exact absurd hok hother.2

/-- Witness: the score invariant holds concretely after the same mixed
submission sequence, and the rejected resubmission left scores unchanged. -/
theorem score_matches_correct_records_witness :
    ScoreInv baseStore ∧
    ScoreInv (submitMany baseStore [(1, 1, 2), (1, 1, 2), (2, 1, 3), (1, 1, 5), (9, 1, 2)]) :=
  ⟨by decide, (score_matches_correct_records baseStore
    [(1, 1, 2), (1, 1, 2), (2, 1, 3), (1, 1, 5), (9, 1, 2)] (by decide)).1⟩

end QuizPeach

namespace QuizPeach

lemma getUser_bumpScore (us : List User) (uid tid : Nat) :
    (bumpScore us uid).find? (fun u => u.id == tid) =
      (us.find? (fun u => u.id == tid)).map
        (fun u => if u.id == uid then { u with score := u.score + 1 } else u) := by
  apply find?_map_comm
  intro x
  by_cases hx : (x.id == uid) = true <;> simp [hx]

lemma getQuestion_bump (qs : List Question) (qid tid : Nat) (b : Bool) :
    (bumpQuestionCounters qs qid b).find? (fun q => q.id == tid) =
      (qs.find? (fun q => q.id == tid)).map (fun q =>
        if q.id == qid then
          { q with answer_count := q.answer_count + 1,
                   correct_answer_count := q.correct_answer_count + (if b then 1 else 0) }
        else q) := by
  apply find?_map_comm
  intro x
  by_cases hx : (x.id == qid) = true <;> simp [hx]

lemma any_pair_of_filter_nil {recs : List AnsweredQuestionUser} {uid qid : Nat}
    (hfilter : List.filter (fun r => r.user_id == uid && r.question_id == qid) recs = []) :
    recs.any (fun r => r.user_id == uid && r.question_id == qid) = false := by
  rw [List.any_eq_false]
  intro r hr
  exact List.filter_eq_nil_iff.mp hfilter r hr

/-- C1: a first submission for a pair (user, question) that has no ledger row
succeeds, leaves exactly one ledger row for the pair, and any further valid
submission for the same pair is rejected with the duplicate-answer conflict and
leaves the ledger untouched (no overwrite, no duplicate). -/
theorem answer_twice_succeeds_once (s : Store) (uid qid opt : Nat) (u : User) (q : Question)
    (hq0 : qid ≠ 0) (hv : validOption opt = true)
    (hu : getUser s uid = some u) (hq : getQuestion s qid = some q)
    (hfresh : recordsFor s uid qid = []) :
    (∃ c, (submitAnswer s uid qid opt).outcome = .ok c) ∧
    (recordsFor (submitAnswer s uid qid opt).store uid qid).length = 1 ∧
    (∀ opt2, validOption opt2 = true →
      (submitAnswer (submitAnswer s uid qid opt).store uid qid opt2).outcome =
        .error .ConflictError ∧
      (submitAnswer (submitAnswer s uid qid opt).store uid qid opt2).store.records =
        (submitAnswer s uid qid opt).store.records) := by
  have hfilter : List.filter (fun r => r.user_id == uid && r.question_id == qid) s.records = [] :=
    hfresh
  have hany := any_pair_of_filter_nil hfilter
  rw [submitAnswer_fresh s uid qid opt u q hq0 hv hu hq hany]
  refine ⟨⟨_, rfl⟩, ?_, ?_⟩
  · simp [recordsFor, List.filter_append, hfilter, List.filter_cons]
  · intro opt2 hv2
    set c := (q.correct_option == opt) with hc
    have hu2 : getUser
        ⟨(if c then bumpScore s.users uid else s.users), bumpQuestionCounters s.questions qid c,
         s.tags, s.records ++ [⟨qid, uid, if c then statusCorrect else statusIncorrect⟩],
         s.related⟩ uid =
        some (if c then { u with score := u.score + 1 } else u) := by
      rw [show getUser s uid = s.users.find? (fun x => x.id == uid) from rfl] at hu
      have hpu : (u.id == uid) = true := by
        have h := List.find?_some hu
        exact h
      have huid : u.id = uid := by simpa using hpu
      cases hcv : c
      · simpa [getUser, hcv] using hu
      · have hmap := getUser_bumpScore s.users uid uid
        simp [getUser, hcv, hmap, hu, huid]
    have hq2 : getQuestion
        ⟨(if c then bumpScore s.users uid else s.users), bumpQuestionCounters s.questions qid c,
         s.tags, s.records ++ [⟨qid, uid, if c then statusCorrect else statusIncorrect⟩],
         s.related⟩ qid =
        some (if c then
          { q with answer_count := q.answer_count + 1,
                   correct_answer_count := q.correct_answer_count + 1 }
          else { q with answer_count := q.answer_count + 1 }) := by
      rw [show getQuestion s qid = s.questions.find? (fun x => x.id == qid) from rfl] at hq
      have hpq : (q.id == qid) = true := by
        have h := List.find?_some hq
        exact h
      have hqid : q.id = qid := by simpa using hpq
      cases hcv : c
      · have hmap := getQuestion_bump s.questions qid qid false
        simp [getQuestion, hcv, hmap, hq, hqid]
      · have hmap := getQuestion_bump s.questions qid qid true
        simp [getQuestion, hcv, hmap, hq, hqid]
    have hdup2 :
        (s.records ++ [AnsweredQuestionUser.mk qid uid
          (if c then statusCorrect else statusIncorrect)]).any
          (fun r => r.user_id == uid && r.question_id == qid) = true := by
      simp
    rw [submitAnswer_dup _ uid qid opt2 _ _ hq0 hv2 hu2 hq2 hdup2]
    exact ⟨rfl, rfl⟩

/-- Witness for C1 at `baseStore`: user 1 submits option 2 for question 1; the
submission succeeds and exactly one ledger row for the pair persists. -/
theorem answer_twice_succeeds_once_witness :
    validOption 2 = true ∧ recordsFor baseStore 1 1 = [] ∧
    (recordsFor (submitAnswer baseStore 1 1 2).store 1 1).length = 1 :=
  ⟨rfl, rfl, (answer_twice_succeeds_once baseStore 1 1 2 ⟨1, "alice", 0⟩ baseQuestion
    (by decide) rfl rfl rfl rfl).2.1⟩

end QuizPeach

namespace QuizPeach

/-- C4: on a first submission with an existing user and question, choosing the
correct option answers `{correct: true}` and performs exactly the three counter
mutations (question `answer_count` and `correct_answer_count` up by one, user
score up by one); a wrong option answers `{correct: false}` and only
`answer_count` moves. In both cases the only other store change is the single
appended ledger row: tags, related rows, every other question and every other
user are untouched. -/
theorem first_submission_scoring (s : Store) (uid qid opt : Nat) (u : User) (q : Question)
    (hq0 : qid ≠ 0) (hv : validOption opt = true)
    (hu : getUser s uid = some u) (hq : getQuestion s qid = some q)
    (hfresh : recordsFor s uid qid = []) :
    (q.correct_option = opt →
      (submitAnswer s uid qid opt).outcome = .ok true ∧
      getQuestion (submitAnswer s uid qid opt).store qid =
        some { q with answer_count := q.answer_count + 1,
                      correct_answer_count := q.correct_answer_count + 1 } ∧
      getUser (submitAnswer s uid qid opt).store uid = some { u with score := u.score + 1 }) ∧
    (q.correct_option ≠ opt →
      (submitAnswer s uid qid opt).outcome = .ok false ∧
      getQuestion (submitAnswer s uid qid opt).store qid =
        some { q with answer_count := q.answer_count + 1 } ∧
      getUser (submitAnswer s uid qid opt).store uid = some u) ∧
    (submitAnswer s uid qid opt).store.tags = s.tags ∧
    (submitAnswer s uid qid opt).store.related = s.related ∧
    (∃ st, (submitAnswer s uid qid opt).store.records =
      s.records ++ [AnsweredQuestionUser.mk qid uid st]) ∧
    (∀ qid2, qid2 ≠ qid →
      getQuestion (submitAnswer s uid qid opt).store qid2 = getQuestion s qid2) ∧
    (∀ uid2, uid2 ≠ uid →
      getUser (submitAnswer s uid qid opt).store uid2 = getUser s uid2) := by
  have hfilter : List.filter (fun r => r.user_id == uid && r.question_id == qid) s.records = [] :=
    hfresh
  have hany := any_pair_of_filter_nil hfilter
  rw [submitAnswer_fresh s uid qid opt u q hq0 hv hu hq hany]
  rw [show getUser s uid = s.users.find? (fun x => x.id == uid) from rfl] at hu
  rw [show getQuestion s qid = s.questions.find? (fun x => x.id == qid) from rfl] at hq
  have hpu : (u.id == uid) = true := by
    have h := List.find?_some hu
    exact h
  have hpq : (q.id == qid) = true := by
    have h := List.find?_some hq
    exact h
  have huid : u.id = uid := by simpa using hpu
  have hqid : q.id = qid := by simpa using hpq
  refine ⟨?_, ?_, rfl, rfl, ⟨_, rfl⟩, ?_, ?_⟩
  · intro hcorrect
    have hcb : (q.correct_option == opt) = true := by simpa using hcorrect
    have hmapq := getQuestion_bump s.questions qid qid true
    have hmapu := getUser_bumpScore s.users uid uid
    refine ⟨by simp [hcb], ?_, ?_⟩
    · simp [getQuestion, hcb, hmapq, hq, hqid]
    · simp [getUser, hcb, hmapu, hu, huid]
  · intro hwrong
    have hcb : (q.correct_option == opt) = false := by simpa using hwrong
    have hmapq := getQuestion_bump s.questions qid qid false
    refine ⟨by simp [hcb], ?_, ?_⟩
    · simp [getQuestion, hcb, hmapq, hq, hqid]
    · simpa [getUser, hcb] using hu
  · intro qid2 hne
    have hskip : (bumpQuestionCounters s.questions qid (q.correct_option == opt)).find?
        (fun x => x.id == qid2) = s.questions.find? (fun x => x.id == qid2) := by
      apply find?_map_skip
      · intro x
        by_cases hx : (x.id == qid) = true <;> simp [hx]
      · intro x hx
        have hx2 : x.id = qid2 := by simpa using hx
        have : (x.id == qid) = false := by simp [hx2, hne]
        simp [this]
    simp [getQuestion, hskip]
  · intro uid2 hne
    cases hcb : (q.correct_option == opt)
    · simp [getUser, hcb]
    · have hskip : (bumpScore s.users uid).find? (fun x => x.id == uid2) =
          s.users.find? (fun x => x.id == uid2) := by
        apply find?_map_skip
        · intro x
          by_cases hx : (x.id == uid) = true <;> simp [hx]
        · intro x hx
          have hx2 : x.id = uid2 := by simpa using hx
          have : (x.id == uid) = false := by simp [hx2, hne]
          simp [this]
      simp [getUser, hcb, hskip]

/-- Witness for C4 at `baseStore`: user 1 answers question 1 with the correct
option 2; response is correct and all three counters moved by one. -/
theorem first_submission_scoring_witness :
    getUser baseStore 1 = some ⟨1, "alice", 0⟩ ∧
    getQuestion baseStore 1 = some baseQuestion ∧
    baseQuestion.correct_option = 2 ∧
    ((submitAnswer baseStore 1 1 2).outcome = .ok true ∧
      getQuestion (submitAnswer baseStore 1 1 2).store 1 =
        some { baseQuestion with answer_count := 1, correct_answer_count := 1 } ∧
      getUser (submitAnswer baseStore 1 1 2).store 1 = some ⟨1, "alice", 1⟩) :=
  ⟨rfl, rfl, rfl, (first_submission_scoring baseStore 1 1 2 ⟨1, "alice", 0⟩ baseQuestion
    (by decide) rfl rfl rfl rfl).1 rfl⟩

end QuizPeach

namespace QuizPeach

/-- C5: a submission with an invalid option, a missing user, or a missing
question fails without mutating the store at all; an invalid option reports the
validation error, and with a valid option and nonzero question id a missing
user or missing question reports the not-found error. -/
theorem failed_validation_no_mutation (s : Store) (uid qid opt : Nat)
    (h : validOption opt = false ∨ getUser s uid = none ∨ getQuestion s qid = none) :
    (submitAnswer s uid qid opt).store = s ∧
    (∃ e, (submitAnswer s uid qid opt).outcome = .error e) ∧
    (validOption opt = false →
      (submitAnswer s uid qid opt).outcome = .error .ValidationError) ∧
    (validOption opt = true → qid ≠ 0 → getUser s uid = none →
      (submitAnswer s uid qid opt).outcome = .error .NotFoundError) ∧
    (validOption opt = true → qid ≠ 0 → getUser s uid ≠ none → getQuestion s qid = none →
      (submitAnswer s uid qid opt).outcome = .error .NotFoundError) := by
  by_cases h0 : (qid == 0 || opt == 0) = true
  · have hzero : qid = 0 ∨ opt = 0 := by simpa using h0
    refine ⟨by simp [submitAnswer, h0], ⟨.ValidationError, by simp [submitAnswer, h0]⟩,
      fun _ => by simp [submitAnswer, h0], ?_, ?_⟩
    · intro hv hq0 _
      exfalso
      rcases hzero with hz | hz
      · exact hq0 hz
      · exact validOption_ne_zero hv hz
    · intro hv hq0 _ _
      exfalso
      rcases hzero with hz | hz
      · exact hq0 hz
      · exact validOption_ne_zero hv hz
  · have h0f : (qid == 0 || opt == 0) = false := by simpa using h0
    by_cases hvv : validOption opt = true
    · cases hu : getUser s uid with
      | none =>
        refine ⟨by simp [submitAnswer, h0f, hvv, hu],
          ⟨.NotFoundError, by simp [submitAnswer, h0f, hvv, hu]⟩, ?_, ?_, ?_⟩
        · intro hx
          rw [hvv] at hx
          cases hx
        · intro _ _ _
          simp [submitAnswer, h0f, hvv, hu]
        · intro _ _ hne _
          exact absurd rfl hne
      | some u =>
        cases hqq : getQuestion s qid with
        | none =>
          refine ⟨by simp [submitAnswer, h0f, hvv, hu, hqq],
            ⟨.NotFoundError, by simp [submitAnswer, h0f, hvv, hu, hqq]⟩, ?_, ?_, ?_⟩
          · intro hx
            rw [hvv] at hx
            cases hx
          · intro _ _ hnone
            cases hnone
          · intro _ _ _ _
            simp [submitAnswer, h0f, hvv, hu, hqq]
        | some q =>
          exfalso
          rcases h with hcase | hcase | hcase
          · rw [hvv] at hcase
            cases hcase
          · rw [hu] at hcase
            cases hcase
          · rw [hqq] at hcase
            cases hcase
    · have hvf : (!(validOption opt)) = true := by simp [Bool.not_eq_true] at hvv ⊢; exact hvv
      refine ⟨by simp [submitAnswer, h0f, hvf], ⟨.ValidationError, by simp [submitAnswer, h0f, hvf]⟩,
        fun _ => by simp [submitAnswer, h0f, hvf], ?_, ?_⟩
      · intro hx
        rw [hx] at hvf
        cases hvf
      · intro hx
        rw [hx] at hvf
        cases hvf

/-- Witness for C5 at `baseStore`: option 5 is rejected with the validation
error and the store is exactly as before. -/
theorem failed_validation_no_mutation_witness :
    (validOption 5 = false ∨ getUser baseStore 1 = none ∨ getQuestion baseStore 1 = none) ∧
    (submitAnswer baseStore 1 1 5).store = baseStore ∧
    (submitAnswer baseStore 1 1 5).outcome = .error .ValidationError :=
  ⟨Or.inl rfl,
   (failed_validation_no_mutation baseStore 1 1 5 (Or.inl rfl)).1,
   (failed_validation_no_mutation baseStore 1 1 5 (Or.inl rfl)).2.2.1 rfl⟩

end QuizPeach

namespace QuizPeach

/-- C2 (code evaluation): in `answeredStore` user 1 already answered question 1
correctly, with counters at 1. Resubmitting the correct option is rejected with
the duplicate-answer conflict, yet both question counters have moved from 1 to
2 — the handler increments them before consulting the ledger — while the score
is unchanged and no second ledger row is created. -/
theorem resubmission_still_bumps_counters :
    (submitAnswer answeredStore 1 1 2).outcome = .error .ConflictError ∧
    answeredQ.answer_count = 1 ∧
    answeredQ.correct_answer_count = 1 ∧
    getQuestion (submitAnswer answeredStore 1 1 2).store 1 =
      some { answeredQ with answer_count := 2, correct_answer_count := 2 } ∧
    getUser (submitAnswer answeredStore 1 1 2).store 1 = some ⟨1, "alice", 1⟩ ∧
    (recordsFor (submitAnswer answeredStore 1 1 2).store 1 1).length = 1 := by
  refine ⟨rfl, rfl, rfl, by decide, rfl, rfl⟩

/-- C3 (code evaluation): on the score sequence [50, 50, 30], already sorted
descending, the handler assigns ranks [1, 1, 1] — the `rank` variable is
updated only after being attached, one position late — not the competition
ranking [1, 1, 3]. -/
theorem rank_walk_lags_competition_ranking :
    scoresOut (leaderboard lbStore none none 1) = [50, 50, 30] ∧
    ranksOut (leaderboard lbStore none none 1) = [1, 1, 1] ∧
    [1, 1, 1] ≠ ([1, 1, 3] : List Nat) :=
  ⟨rfl, rfl, by decide⟩

/-- C8 (code evaluation): the leaderboard never reads its sort parameter — the
response is identical for any two values of it — and a request with `asc` still
returns the other users in descending score order ([20, 10] after the
requester), because `sortOrder` is hard-coded to `'DESC'`. -/
theorem sort_param_ignored :
    (∀ (s : Store) (n sp sp2 : Option String) (uid : Nat),
      leaderboard s n sp uid = leaderboard s n sp2 uid) ∧
    leaderboard sortStore none (some "asc") 1 = leaderboard sortStore none (some "desc") 1 ∧
    scoresOut (leaderboard sortStore none (some "asc") 1) = [0, 20, 10] :=
  ⟨fun _ _ _ _ _ => rfl, rfl, rfl⟩

end QuizPeach

namespace QuizPeach

/-- When tag ids are unique (the table's primary key), looking a member tag up
by its own id finds exactly that tag. -/
lemma find?_id_of_nodup (ts : List Tag) (t : Tag)
    (hnd : (ts.map (fun x => x.id)).Nodup) (hmem : t ∈ ts) :
    ts.find? (fun x => x.id == t.id) = some t := by
  induction ts with
  | nil => cases hmem
  | cons a as ih =>
    rw [List.map_cons, List.nodup_cons] at hnd
    obtain ⟨hnotin, hnd2⟩ := hnd
    rcases List.mem_cons.mp hmem with rfl | hmem2
    · rw [List.find?_cons_of_pos _ (by simp)]
    · have hane : a.id ≠ t.id := by
        intro heq
        exact hnotin (heq ▸ List.mem_map_of_mem (fun x => x.id) hmem2)
      rw [List.find?_cons_of_neg _ (by simp [hane])]
      exact ih hnd2 hmem2

/-- Evaluation of the question-creation handler when the body is valid and the
tag name resolves. -/
lemma createQuestion_found (s : Store) (cuid : Nat) (b : CreateQuestionInput) (t : Tag)
    (hreq : requiredFieldsPresent b = true) (hv : validOption b.correct_option = true)
    (ht : s.tags.find? (fun x => x.name == b.tag_name) = some t) :
    createQuestion s cuid b =
      ⟨⟨s.users, s.questions ++ [newQuestionFor s cuid b t.id],
        s.tags.map (fun x =>
          if x.id == t.id then { x with question_number := x.question_number + 1 } else x),
        s.records,
        s.related ++ b.related_ids.map (fun rid => RelatedQuestion.mk (freshQuestionId s) rid)⟩,
      .ok ()⟩ := by
  have hreq2 : (!(requiredFieldsPresent b)) = false := by simp [hreq]
  have hv2 : (!(validOption b.correct_option)) = false := by simp [hv]
  simp only [createQuestion, hreq2, hv2, ht, Bool.false_eq_true, if_false, newQuestionFor]

/-- C9: with valid body fields, creating a question whose tag name resolves to
tag `t` succeeds, appends exactly the new Question row referencing `t`, and
moves `t`'s `question_number` up by one while every other tag keeps its count;
when no tag carries the requested name, the handler reports not-found and the
store — every table, in particular the questions and every tag count — is
exactly as before. Tag ids are assumed unique, as the table's primary key. -/
theorem tag_counter_on_question_create (s : Store) (cuid : Nat) (b : CreateQuestionInput)
    (hreq : requiredFieldsPresent b = true) (hv : validOption b.correct_option = true)
    (hnd : (s.tags.map (fun x => x.id)).Nodup) :
    (∀ t, s.tags.find? (fun x => x.name == b.tag_name) = some t →
      (createQuestion s cuid b).outcome = .ok () ∧
      getTag (createQuestion s cuid b).store t.id =
        some { t with question_number := t.question_number + 1 } ∧
      (∀ tid, tid ≠ t.id → getTag (createQuestion s cuid b).store tid = getTag s tid) ∧
      (createQuestion s cuid b).store.questions =
        s.questions ++ [newQuestionFor s cuid b t.id]) ∧
    (s.tags.find? (fun x => x.name == b.tag_name) = none →
      (createQuestion s cuid b).outcome = .error .NotFoundError ∧
      (createQuestion s cuid b).store = s) := by
  have hreq2 : (!(requiredFieldsPresent b)) = false := by simp [hreq]
  have hv2 : (!(validOption b.correct_option)) = false := by simp [hv]
  constructor
  · intro t ht
    have hmem : t ∈ s.tags := List.mem_of_find?_eq_some ht
    have hbyid : s.tags.find? (fun x => x.id == t.id) = some t := find?_id_of_nodup s.tags t hnd hmem
    rw [createQuestion_found s cuid b t hreq hv ht]
    refine ⟨rfl, ?_, ?_, rfl⟩
    · have hmap := find?_map_comm (fun x => x.id == t.id)
        (fun x => if x.id == t.id then { x with question_number := x.question_number + 1 } else x)
        (fun x => by by_cases hx : (x.id == t.id) = true <;> simp [hx]) s.tags
      simp only [getTag]
      rw [hmap, hbyid]
      simp
    · intro tid hne
      have hskip := find?_map_skip (fun x => x.id == tid)
        (fun x => if x.id == t.id then { x with question_number := x.question_number + 1 } else x)
        (fun x => by by_cases hx : (x.id == t.id) = true <;> simp [hx])
        (fun x hx => by
          have hx2 : x.id = tid := by simpa using hx
          have hxf : (x.id == t.id) = false := by simp [hx2, hne]
          simp [hxf]) s.tags
      simp only [getTag]
      rw [hskip]
  · intro hnone
    exact ⟨by simp [createQuestion, hreq2, hv2, hnone], by simp [createQuestion, hreq2, hv2, hnone]⟩

/-- Witness for C9 at `baseStore`: tag Algebra has `question_number = 3`;
creating an Algebra-tagged question yields 4, while an unknown tag name is
rejected leaving the store unchanged. -/
theorem tag_counter_on_question_create_witness :
    requiredFieldsPresent algebraBody = true ∧
    baseStore.tags.find? (fun x => x.name == algebraBody.tag_name) = some ⟨1, "Algebra", 3⟩ ∧
    (createQuestion baseStore 1 algebraBody).outcome = .ok () ∧
    getTag (createQuestion baseStore 1 algebraBody).store 1 = some ⟨1, "Algebra", 4⟩ ∧
    baseStore.tags.find? (fun x => x.name == unknownTagBody.tag_name) = none ∧
    (createQuestion baseStore 1 unknownTagBody).outcome = .error .NotFoundError ∧
    (createQuestion baseStore 1 unknownTagBody).store = baseStore :=
  ⟨rfl, rfl,
   ((tag_counter_on_question_create baseStore 1 algebraBody rfl rfl (by decide)).1
      ⟨1, "Algebra", 3⟩ rfl).1,
   ((tag_counter_on_question_create baseStore 1 algebraBody rfl rfl (by decide)).1
      ⟨1, "Algebra", 3⟩ rfl).2.1,
   rfl,
   ((tag_counter_on_question_create baseStore 1 unknownTagBody rfl rfl (by decide)).2 rfl).1,
   ((tag_counter_on_question_create baseStore 1 unknownTagBody rfl rfl (by decide)).2 rfl).2⟩

end QuizPeach

namespace QuizPeach

/-- C10: an authenticated leaderboard request always returns the requesting
user as the first element, carrying rank 1 whatever the scores are; the name
criterion restricts only the remaining elements, which are exactly the other
users (never the requester, who is excluded from the filtered query and
prepended unconditionally). -/
theorem requester_first_rank_one (s : Store) (nameFilter sortP : Option String)
    (uid : Nat) (cu : User) (h : getUser s uid = some cu) :
    ∃ l, leaderboard s nameFilter sortP uid = .ok ((cu, 1) :: l) ∧
      (∀ p ∈ l, p.1.id ≠ uid) ∧
      (∀ p ∈ l, nameFilterMatch nameFilter p.1.name = true) ∧
      (∀ v ∈ s.users, v.id ≠ uid → nameFilterMatch nameFilter v.name = true →
        v ∈ l.map (fun p => p.1)) := by
  refine ⟨rankWalk cu.score 1 1 (sortScoreDesc (s.users.filter (fun u =>
      !(u.id == uid) && nameFilterMatch nameFilter u.name))), ?_, ?_, ?_, ?_⟩
  · simp only [leaderboard, h, assignRanks]
  · intro p hp
    have h1 : p.1 ∈ (rankWalk cu.score 1 1 (sortScoreDesc (s.users.filter (fun u =>
        !(u.id == uid) && nameFilterMatch nameFilter u.name)))).map (fun x => x.1) :=
      List.mem_map_of_mem (fun x => x.1) hp
    rw [rankWalk_map_fst] at h1
    have h2 := mem_sortScoreDesc.mp h1
    have h3 := (List.mem_filter.mp h2).2
    intro hcontra
    simp [hcontra] at h3
  · intro p hp
    have h1 : p.1 ∈ (rankWalk cu.score 1 1 (sortScoreDesc (s.users.filter (fun u =>
        !(u.id == uid) && nameFilterMatch nameFilter u.name)))).map (fun x => x.1) :=
      List.mem_map_of_mem (fun x => x.1) hp
    rw [rankWalk_map_fst] at h1
    have h2 := mem_sortScoreDesc.mp h1
    have h3 := (List.mem_filter.mp h2).2
    exact (Bool.and_eq_true .. ▸ h3).2
  · intro v hv hne hmatch
    rw [rankWalk_map_fst]
    exact mem_sortScoreDesc.mpr (List.mem_filter.mpr ⟨hv, by simp [hne, hmatch]⟩)

/-- Witness for C10 at `sortStore`: user 2 (score 10, not the highest) requests
the leaderboard with name filter c; they still come first with rank 1, and the
filter applies only to the others. -/
theorem requester_first_rank_one_witness :
    getUser sortStore 2 = some ⟨2, "bea", 10⟩ ∧
    (∃ l, leaderboard sortStore (some "c") none 2 = .ok ((⟨2, "bea", 10⟩, 1) :: l) ∧
      (∀ p ∈ l, p.1.id ≠ 2) ∧
      (∀ p ∈ l, nameFilterMatch (some "c") p.1.name = true) ∧
      (∀ v ∈ sortStore.users, v.id ≠ 2 → nameFilterMatch (some "c") v.name = true →
        v ∈ l.map (fun p => p.1))) :=
  ⟨rfl, requester_first_rank_one sortStore (some "c") none 2 ⟨2, "bea", 10⟩ rfl⟩

end QuizPeach
